import Mathlib

/-!
Verification development for the reppo-acp-integration job lifecycle engine.

Shallow embedding of the core modules:
  * `src/handlers/publish.ts` (part_010): `handlePublishJob`, `retryPendingJobs`,
    `parseJobContent`, `normalizeSubnets`, `getBuyerId`
  * `src/lib/dedup.ts`: idempotency store and per-item processing lock
  * `src/lib/pending-jobs.ts`: write-ahead log of in-flight jobs
  * `src/lib/pods.ts` (DynamoDB variant, part_013): `savePod`, `getJobMint`

External I/O (twitter fetch, chain mint, metadata publish, protocol calls,
file persistence success) is supplied through an explicit `Oracle`; each call
is additionally recorded in an event trace so that ordering and call-count
properties can be stated.
-/

namespace ReppoAcp

/-- List deduplication keeping the first occurrence of each element, i.e. the
semantics of the JS idiom `[...new Set(xs)]`. -/
def dedupFirstAux (seen : List String) : List String → List String
  | [] => []
  | x :: xs =>
    if seen.contains x then dedupFirstAux seen xs
    else x :: dedupFirstAux (x :: seen) xs

/-- Entry point of the first-occurrence deduplication. -/
def dedupFirst (l : List String) : List String :=
  dedupFirstAux [] l

/-- Add an element to a set-as-list if absent (JS `Set.add`). -/
def insertIfAbsent (l : List String) (x : String) : List String :=
  if l.contains x then l else l ++ [x]

/-- Boolean check that `n` occurs as a contiguous substring of `hay`
(JS `hay.includes(n)`), via character lists. -/
def startsWithL : List Char → List Char → Bool
  | [], _ => true
  | _ :: _, [] => false
  | a :: as, b :: bs => a = b && startsWithL as bs

/-- Substring search over char lists. -/
def hasInfixL (n : List Char) : List Char → Bool
  | [] => startsWithL n []
  | b :: bs => startsWithL n (b :: bs) || hasInfixL n bs

/-- JS `hay.includes(needle)` for strings. -/
def strIncludes (hay needle : String) : Bool :=
  hasInfixL needle.toList hay.toList

/-- Characters of JS `String.prototype.trim`: strip leading and trailing
whitespace. -/
def trimChars (l : List Char) : List Char :=
  ((l.dropWhile Char.isWhitespace).reverse.dropWhile Char.isWhitespace).reverse

/-- JS `s.trim()`. -/
def jsTrim (s : String) : String :=
  String.mk (trimChars s.toList)

/-- Accumulator-based splitter for JS `s.split(',')`. -/
def splitCommaAux (acc : List Char) : List Char → List (List Char)
  | [] => [acc.reverse]
  | c :: rest =>
    if c = ',' then acc.reverse :: splitCommaAux [] rest
    else splitCommaAux (c :: acc) rest

/-- JS `s.split(',')`. -/
def jsSplitComma (s : String) : List String :=
  (splitCommaAux [] s.toList).map String.mk

/-- JS `s.toLowerCase()` (ASCII lowering, as `Char.toLower`). -/
def jsToLower (s : String) : String :=
  String.mk (s.toList.map Char.toLower)

/-- JS string truthiness for an optional string field: present and non-empty. -/
def truthy : Option String → Bool
  | none => false
  | some s => s ≠ ""

/-- JS truthiness for an optional numeric field (`0` is falsy, as with the
bigint `podId` in `mintPod`'s result). -/
def natTruthy : Option Nat → Bool
  | none => false
  | some n => n ≠ 0

/-- Character class of the regex `[\s_-]` used by the subnet-name normalizer in
`handlePublishJob`'s validation block. -/
def isSepChar (c : Char) : Bool :=
  c.isWhitespace || c = '_' || c = '-'

/-- Collapse runs of separator characters into a single underscore, tracking
whether the previous character was a separator (the `replace(/[\s_-]+/g, '_')`
step of the subnet-name normalizer). -/
def collapseSepAux : Bool → List Char → List Char
  | _, [] => []
  | prevSep, c :: rest =>
    if isSepChar c then
      if prevSep then collapseSepAux true rest
      else '_' :: collapseSepAux true rest
    else c :: collapseSepAux false rest

/-- The subnet-name normalizer from `handlePublishJob`:
`(s) => s.toLowerCase().replace(/[\s_-]+/g, '_')`. -/
def normalizeName (s : String) : String :=
  String.mk (collapseSepAux false (jsToLower s).toList)

/-! ## Job parser (`normalizeSubnets`, `parseJobContent`) -/

/-- The JSON fields that `parseJobContent` reads from a decoded memo object
(either at top level or under the `requirement` wrapper). `subnets` holds the
already-string-coerced array elements (`String(s)` in the source). -/
structure JFields where
  postUrl : Option String := none
  subnets : Option (List String) := none
  subnet : Option String := none
  agentName : Option String := none
  agentDescription : Option String := none
  podName : Option String := none
  podDescription : Option String := none
  deriving Repr, DecidableEq

/-- A decoded memo: an optional `requirement` wrapper plus the top-level
fields. A memo whose content is not JSON-decodable is `none` at the use site. -/
structure JContent where
  requirement : Option JFields := none
  top : JFields := {}
  deriving Repr, DecidableEq

/-- Result shape of `parseJobContent`. -/
structure ParsedJobContent where
  postUrl : Option String := none
  subnets : Option (List String) := none
  agentName : Option String := none
  agentDescription : Option String := none
  podName : Option String := none
  podDescription : Option String := none
  deriving Repr, DecidableEq

/-- `normalizeSubnets` from the handler: prefer the `subnets` array (map to
string, trim, drop empties), else split a non-blank `subnet` string on commas
(trim, drop empties), else `undefined`. -/
def normalizeSubnets (source : JFields) : Option (List String) :=
  match source.subnets with
  | some arr => some ((arr.map jsTrim).filter (fun s => s ≠ ""))
  | none =>
    match source.subnet with
    | some s =>
      if jsTrim s ≠ "" then
        some (((jsSplitComma s).map jsTrim).filter (fun s => s ≠ ""))
      else none
    | none => none

/-- One step of `parseJobContent`'s memo loop: the decoded content is read
through the `requirement` wrapper when present (`content?.requirement ??
content`), each field is assigned only when the incoming value is truthy and
the field is still unset, and `postUrl`/`subnets` additionally fall back to the
top level. A non-decodable memo (`none`) is skipped. The source's statement
sequence touches each field independently, so the step is written field-wise:
the requirement-level assignment takes priority, and the top-level fallback
for `postUrl`/`subnets` fires exactly when the requirement-level one left the
field unset (an assigned `postUrl` is truthy, an assigned `subnets` is a
present array, so neither trailing check can overwrite). -/
def parseMemoStep (r : ParsedJobContent) : Option JContent → ParsedJobContent
  | none => r
  | some content =>
    let req := content.requirement.getD content.top
    { postUrl :=
        if truthy req.postUrl && !(truthy r.postUrl) then req.postUrl
        else if truthy content.top.postUrl && !(truthy r.postUrl) then content.top.postUrl
        else r.postUrl
      subnets :=
        if r.subnets.isSome then r.subnets
        else
          match normalizeSubnets req with
          | some v => some v
          | none => normalizeSubnets content.top
      agentName :=
        if truthy req.agentName && !(truthy r.agentName) then req.agentName else r.agentName
      agentDescription :=
        if truthy req.agentDescription && !(truthy r.agentDescription) then req.agentDescription
        else r.agentDescription
      podName :=
        if truthy req.podName && !(truthy r.podName) then req.podName else r.podName
      podDescription :=
        if truthy req.podDescription && !(truthy r.podDescription) then req.podDescription
        else r.podDescription }

/-- `parseJobContent`: scan all memos in order, accumulating fields with
first-truthy-value-wins semantics. -/
def parseJobContent (memos : List (Option JContent)) : ParsedJobContent :=
  memos.foldl parseMemoStep {}

/-! ## Idempotency store and processing lock (`src/lib/dedup.ts`) -/

/-- State of the dedup module: the in-memory mirrors (`cache`, `mintedJobs`),
the durable file contents (`processedTweets`, `mintedJobs` on disk), and the
in-process `processingLocks` key set. -/
structure DedupState where
  processedMem : List String := []
  processedDisk : List String := []
  mintedMem : List String := []
  mintedDisk : List String := []
  locks : List String := []
  deriving Repr, DecidableEq

/-- `MAX_ENTRIES` cap on the persisted processed-tweet list. -/
def MAX_ENTRIES : Nat := 10000

/-- `hasProcessed`: membership in the in-memory cache. -/
def hasProcessed (st : DedupState) (tweetId : String) : Bool :=
  st.processedMem.contains tweetId

/-- `markProcessed`: add to the in-memory cache first, then attempt the
durable write (append if absent, trim to the newest `MAX_ENTRIES`). A
persistence failure (`persistOk = false`, standing for a thrown lock or write
error) is caught and only logged, leaving the disk state unchanged; the
function never fails its caller. -/
def markProcessed (persistOk : Bool) (st : DedupState) (tweetId : String) : DedupState :=
  let st := { st with processedMem := insertIfAbsent st.processedMem tweetId }
  if persistOk then
    if st.processedDisk.contains tweetId then st
    else
      let upd := st.processedDisk ++ [tweetId]
      let upd := if upd.length > MAX_ENTRIES then upd.drop (upd.length - MAX_ENTRIES) else upd
      { st with processedDisk := upd }
  else st

/-- `acquireProcessingLock`: busy (`none`) if the key is already held,
otherwise record the key and hand back the release capability. -/
def acquireProcessingLock (st : DedupState) (tweetId : String) : Option Unit × DedupState :=
  if st.locks.contains tweetId then (none, st)
  else (some (), { st with locks := tweetId :: st.locks })

/-- The release handle returned by `acquireProcessingLock`: delete the key
from the lock map (idempotent). -/
def releaseProcessingLock (st : DedupState) (tweetId : String) : DedupState :=
  { st with locks := st.locks.filter (fun k => k ≠ tweetId) }

/-- `hasJobMinted`: membership in the in-memory minted-job set. -/
def hasJobMinted (st : DedupState) (jobId : String) : Bool :=
  st.mintedMem.contains jobId

/-- `markJobMinted`: add to the in-memory set first, then attempt the durable
write (append if absent). A persistence failure is caught and only logged. -/
def markJobMinted (persistOk : Bool) (st : DedupState) (jobId : String) : DedupState :=
  let st := { st with mintedMem := insertIfAbsent st.mintedMem jobId }
  if persistOk then
    if st.mintedDisk.contains jobId then st
    else { st with mintedDisk := st.mintedDisk ++ [jobId] }
  else st

/-! ## Work log / pending jobs (`src/lib/pending-jobs.ts`) -/

inductive PendingJobStatus where
  | accepted
  | minted
  | completed
  deriving Repr, DecidableEq

/-- A `PendingJob` work-log entry. Timestamps are milliseconds since epoch
(the source stores ISO strings and compares their epoch values). The
`completedSubnets` field is referenced by `retryPendingJobs`. -/
structure PendingJob where
  jobId : String
  tweetId : String
  postUrl : String
  subnets : List String
  buyerId : Option String := none
  agentName : Option String := none
  agentDescription : Option String := none
  podName : Option String := none
  podDescription : Option String := none
  status : PendingJobStatus
  mintTxHash : Option String := none
  podId : Option Nat := none
  completedSubnets : Option (List String) := none
  createdAt : Nat
  updatedAt : Nat
  retryCount : Nat := 0
  lastError : Option String := none
  deriving Repr, DecidableEq

/-- State of the pending-jobs module: the in-memory map (as an association
list keyed by `jobId`) and the persisted file contents. -/
structure WalState where
  mem : List PendingJob := []
  disk : List PendingJob := []
  deriving Repr, DecidableEq

/-- `persistWithLock`: write the in-memory map to disk; a lock or write
failure is caught and only logged. -/
def persistWithLock (walOk : Bool) (st : WalState) : WalState :=
  if walOk then { st with disk := st.mem } else st

/-- Map upsert keyed by `jobId` (JS `Map.set`). -/
def walUpsert (l : List PendingJob) (j : PendingJob) : List PendingJob :=
  if l.any (fun x => x.jobId = j.jobId) then
    l.map (fun x => if x.jobId = j.jobId then j else x)
  else l ++ [j]

/-- `getPendingJob`: lookup by id in the in-memory map. -/
def getPendingJob (st : WalState) (jobId : String) : Option PendingJob :=
  st.mem.find? (fun x => x.jobId = jobId)

/-- `savePendingJob`: upsert and persist. -/
def savePendingJob (walOk : Bool) (st : WalState) (j : PendingJob) : WalState :=
  persistWithLock walOk { st with mem := walUpsert st.mem j }

/-- `updatePendingJobStatus`: no-op when the id is unknown; otherwise set the
status and the extra mint fields passed by the call sites
(`{ mintTxHash, podId }`), refresh `updatedAt`, persist. -/
def updatePendingJobStatus (walOk : Bool) (now : Nat) (st : WalState) (jobId : String)
    (status : PendingJobStatus) (mintTxHash : Option String) (podId : Option Nat) : WalState :=
  match getPendingJob st jobId with
  | none => st
  | some _ =>
    let mem := st.mem.map (fun x =>
      if x.jobId = jobId then
        { x with status := status, updatedAt := now, mintTxHash := mintTxHash, podId := podId }
      else x)
    persistWithLock walOk { st with mem := mem }

/-- `removePendingJob`: no-op when absent; otherwise delete and persist. -/
def removePendingJob (walOk : Bool) (st : WalState) (jobId : String) : WalState :=
  if st.mem.any (fun x => x.jobId = jobId) then
    persistWithLock walOk { st with mem := st.mem.filter (fun x => x.jobId ≠ jobId) }
  else st

/-- `getPendingJobs`: all non-completed entries. -/
def getPendingJobs (st : WalState) : List PendingJob :=
  st.mem.filter (fun j => j.status ≠ PendingJobStatus.completed)

/-- `recordPendingJobError`: no-op when the id is unknown; otherwise bump
`retryCount`, set `lastError`, refresh `updatedAt`, persist. -/
def recordPendingJobError (walOk : Bool) (now : Nat) (st : WalState) (jobId : String)
    (msg : String) : WalState :=
  match getPendingJob st jobId with
  | none => st
  | some _ =>
    let mem := st.mem.map (fun x =>
      if x.jobId = jobId then
        { x with retryCount := x.retryCount + 1, lastError := some msg, updatedAt := now }
      else x)
    persistWithLock walOk { st with mem := mem }

/-! ## Pods store (`src/lib/pods.ts`, DynamoDB variant) -/

/-- A pod record in the `reppo-pods` table. The numeric `jobId` coercion of
the source (`Number(jobId)`) is elided: ids stay strings throughout. -/
structure PodRecord where
  podId : Nat
  buyerWallet : String
  mintTxHash : String
  jobId : Option String := none
  deriving Repr, DecidableEq

/-- `getJobMint`: scan the pods table for a record carrying this job id. -/
def getJobMint (pods : List PodRecord) (jobId : String) : Option PodRecord :=
  pods.find? (fun p => p.jobId = some jobId)

/-- `savePod` (PutCommand): upsert by `podId`. -/
def savePodPut (pods : List PodRecord) (p : PodRecord) : List PodRecord :=
  if pods.any (fun x => x.podId = p.podId) then
    pods.map (fun x => if x.podId = p.podId then p else x)
  else pods ++ [p]

/-! ## Execution engine state, oracle and event trace -/

/-- Combined mutable state of the engine: dedup store, work log and the pods
table (the latter standing for the external DynamoDB table, which survives
restarts unconditionally). -/
structure EngineState where
  dedup : DedupState := {}
  wal : WalState := {}
  pods : List PodRecord := []
  deriving Repr, DecidableEq

structure TweetData where
  text : String := ""
  authorUsername : String := ""
  mediaUrls : List String := []
  deriving Repr, DecidableEq

structure MintResult where
  txHash : String
  podId : Option Nat := none
  deriving Repr, DecidableEq

/-- One entry of the subnet list returned by `getSubnets` (the handler reads
`s.id`, `s.subnet` and `s.name`). -/
structure SubnetInfo where
  id : String
  subnet : Option String := none
  name : Option String := none
  deriving Repr, DecidableEq

structure AgentSession where
  agentId : String
  deriving Repr, DecidableEq

/-- Deliverable sent to the protocol by `job.deliver`. `failedSubnets` is
present only when non-empty (the conditional spread in the source). -/
structure AcpDeliverable where
  postUrl : String
  subnets : List String
  txHash : String
  podId : Option Nat := none
  basescanUrl : String
  failedSubnets : Option (List String) := none
  deriving Repr, DecidableEq

/-- An inbound ACP job as the handler sees it. Memos are pre-decoded (`none`
for non-JSON content); `id` and `phase` may be absent as in the source
(`job.id ?? 'unknown'`, `typeof job.phase === 'number' ? job.phase : -1`). -/
structure AcpJob where
  id : Option String := none
  phase : Option Int := none
  memos : List (Option JContent) := []
  clientAddress : Option String := none
  buyerAddress : Option String := none
  clientAddr : Option String := none
  buyerAddr : Option String := none
  deriving Repr, DecidableEq

/-- `getBuyerId`: first present of `clientAddress`, `buyerAddress`,
`client?.address`, `buyer?.address`. -/
def getBuyerId (job : AcpJob) : Option String :=
  job.clientAddress.orElse fun _ =>
    job.buyerAddress.orElse fun _ =>
      job.clientAddr.orElse fun _ => job.buyerAddr

/-- Modelled from the spec: the repository snapshot does not contain the
`constants.ts` revision defining `TWITTER_URL_REGEX` and
`MAX_SUBNETS_PER_JOB`, nor the `twitter.ts` revision's regex capture used by
`extractTweetId`. Per the spec, URL validation is a fixed syntactic test on
the post URL, `extractTweetId` extracts the tweet id captured by that same
regex (throwing exactly when the test fails), and the per-job category count
is capped by a constant. They are bundled here as an environment of the run. -/
structure Env where
  urlTest : String → Bool
  tweetIdOf : String → String
  maxSubnets : Nat
  hasAcpContext : Bool := true

/-- External-call results and persistence outcomes for one run. Each `Except`
value is the outcome the external collaborator would produce if called;
`persist…Ok` flags stand for success of the corresponding file write
(failures of which the store modules catch and log). -/
structure Oracle where
  getSubnets : Except String (List SubnetInfo) := .error "unavailable"
  tweet : Except String TweetData := .error "unavailable"
  mint : Except String MintResult := .error "unavailable"
  publishOk : String → Bool := fun _ => true
  deliverOk : Bool := true
  acceptOk : Bool := true
  createReqOk : Bool := true
  savePodOk : Bool := true
  buyerAgent : Except String (Option AgentSession) := .ok none
  persistProcessedOk : Bool := true
  persistMintedOk : Bool := true
  persistWalOk : Bool := true
  now : Nat := 0

/-- Observable events of a run, in order. Call events are recorded when the
corresponding external call or store mutation is made. -/
inductive Event where
  | rejectEv (jobId reason : String)
  | acceptEv (jobId : String)
  | createRequirementEv (jobId : String)
  | getSubnetsEv
  | fetchTweetEv (tweetId : String)
  | getJobMintEv (jobId : String)
  | mintEv (jobId : String)
  | markJobMintedEv (jobId : String)
  | markProcessedEv (tweetId : String)
  | savePendingJobEv (jobId : String)
  | updateStatusEv (jobId : String) (status : PendingJobStatus)
  | removePendingJobEv (jobId : String)
  | recordErrorEv (jobId msg : String)
  | savePodEv (podId : Nat) (jobId : String)
  | submitMetadataEv (jobId subnetId : String) (ok : Bool)
  | acquireLockEv (key : String) (ok : Bool)
  | releaseLockEv (key : String)
  | buyerAgentEv (jobId : String)
  | deliverEv (jobId : String) (d : AcpDeliverable)
  deriving Repr, DecidableEq

/-! ## `handlePublishJob` -/

/-- Display name of a subnet entry: `String(s.subnet ?? s.name ?? '')`. -/
def subnetDisplay (s : SubnetInfo) : String :=
  (s.subnet.orElse fun _ => s.name).getD ""

/-- Availability text used in the invalid-subnet rejection. -/
def subnetListText (l : List SubnetInfo) : String :=
  String.intercalate ", " (l.map (fun s => subnetDisplay s ++ " (id: " ++ s.id ++ ")"))

/-- The per-subnet resolution loop of the validation block: keep a known id
as-is, otherwise resolve a name through `normalizeName` matching, otherwise
reject the whole job with the invalid-subnet reason. -/
def resolveSubnets (subnetList : List SubnetInfo) : List String → Except String (List String)
  | [] => .ok []
  | sn :: rest =>
    if (subnetList.map (fun s => s.id)).contains sn then
      (resolveSubnets subnetList rest).map (fun r => sn :: r)
    else
      match subnetList.find? (fun s => normalizeName (subnetDisplay s) = normalizeName sn) with
      | some m => (resolveSubnets subnetList rest).map (fun r => m.id :: r)
      | none =>
        .error ("Invalid subnet \"" ++ sn ++ "\". Available: " ++ subnetListText subnetList)

/-- The subnet-validation block of `handlePublishJob`: a `getSubnets` failure
is caught and the input list is kept; an empty fetched list skips resolution;
otherwise every entry is resolved (or the job is rejected) and the resolved
ids are deduplicated. -/
def validateSubnets (o : Oracle) (sns : List String) : Except String (List String) :=
  match o.getSubnets with
  | .error _ => .ok sns
  | .ok subnetList =>
    if subnetList.length > 0 then
      (resolveSubnets subnetList sns).map dedupFirst
    else .ok sns

/-- The pending-job record built by checkpoints A and B of the handler. -/
def mkPendingJob (now : Nat) (jobId tweetId postUrl : String) (subnets : List String)
    (job : AcpJob) (content : ParsedJobContent) : PendingJob :=
  { jobId := jobId
    tweetId := tweetId
    postUrl := postUrl
    subnets := subnets
    buyerId := getBuyerId job
    agentName := content.agentName
    agentDescription := content.agentDescription
    podName := content.podName
    podDescription := content.podDescription
    status := .accepted
    createdAt := now
    updatedAt := now
    retryCount := 0 }

/-- The metadata-publish loop: one `submitPodMetadata` call per subnet, each
failure caught independently, accumulating completed and failed lists. -/
def publishLoop (pubOk : String → Bool) (jobId : String) :
    List String → List Event × List String × List String
  | [] => ([], [], [])
  | s :: rest =>
    let (evs, comp, fail) := publishLoop pubOk jobId rest
    if pubOk s then (Event.submitMetadataEv jobId s true :: evs, s :: comp, fail)
    else (Event.submitMetadataEv jobId s false :: evs, comp, s :: fail)

/-- Result of the paid-phase work block before the catch/finally wrapper:
final state, events, and the thrown error if any. -/
structure WorkRes where
  st : EngineState
  evs : List Event
  thrown : Option String := none

/-- The body of the paid-phase `try` block of `handlePublishJob` (from the
tweet fetch to WAL removal), with early returns encoded as `thrown := none`
results and thrown errors as `thrown := some msg`. -/
def paidWork (env : Env) (o : Oracle) (st : EngineState) (job : AcpJob)
    (jobId tweetId postUrl : String) (subnets : List String)
    (content : ParsedJobContent) : WorkRes :=
  -- fetch tweet data
  match o.tweet with
  | .error e => { st := st, evs := [Event.fetchTweetEv tweetId], thrown := some e }
  | .ok tweet =>
    let evs := [Event.fetchTweetEv tweetId]
    let buyerId := getBuyerId job
    -- in-memory minted re-check
    if hasJobMinted st.dedup jobId then
      { st := { st with dedup := releaseProcessingLock st.dedup tweetId }
        evs := evs ++ [Event.releaseLockEv tweetId] }
    else
      -- durable minted lookup (DynamoDB scan)
      let evs := evs ++ [Event.getJobMintEv jobId]
      match getJobMint st.pods jobId with
      | some _ =>
        let st := { st with dedup := markJobMinted o.persistMintedOk st.dedup jobId }
        let st := { st with dedup := releaseProcessingLock st.dedup tweetId }
        { st := st, evs := evs ++ [Event.markJobMintedEv jobId, Event.releaseLockEv tweetId] }
      | none =>
        -- mint pod on-chain
        let evs := evs ++ [Event.mintEv jobId]
        match o.mint with
        | .error msg =>
          if strIncludes msg "Insufficient REPPO" then
            let st := { st with dedup := releaseProcessingLock st.dedup tweetId }
            { st := st
              evs := evs ++ [Event.rejectEv jobId ("Agent insufficient REPPO to mint pod: " ++ msg),
                Event.releaseLockEv tweetId] }
          else { st := st, evs := evs, thrown := some msg }
        | .ok mintResult =>
          -- mark minted and processed immediately, before any further step
          let st := { st with dedup := markJobMinted o.persistMintedOk st.dedup jobId }
          let st := { st with dedup := markProcessed o.persistProcessedOk st.dedup tweetId }
          let evs := evs ++ [Event.markJobMintedEv jobId, Event.markProcessedEv tweetId]
          -- checkpoint C
          let st := { st with wal := (updatePendingJobStatus o.persistWalOk o.now st.wal jobId
            PendingJobStatus.minted (some mintResult.txHash) mintResult.podId) }
          let evs := evs ++ [Event.updateStatusEv jobId PendingJobStatus.minted]
          -- pod tracking
          let buyerWallet := buyerId.getD "agent-wallet"
          let podStep : Option (EngineState × List Event) :=
            if natTruthy mintResult.podId then
              if o.savePodOk then
                let pid := mintResult.podId.getD 0
                some ({ st with pods := (savePodPut st.pods
                  { podId := pid, buyerWallet := buyerWallet,
                    mintTxHash := mintResult.txHash, jobId := some jobId }) },
                  evs ++ [Event.savePodEv pid jobId])
              else none
            else some (st, evs)
          match podStep with
          | none => { st := st, evs := evs, thrown := some "savePod failed" }
          | some (st, evs) =>
            -- buyer profile resolution
            let agentStep : Except String (EngineState × List Event) :=
              if truthy buyerId && truthy content.agentName then
                match o.buyerAgent with
                | .error e => .error e
                | .ok _ => .ok (st, evs ++ [Event.buyerAgentEv jobId])
              else .ok (st, evs)
            match agentStep with
            | .error e => { st := st, evs := evs, thrown := some e }
            | .ok (st, evs) =>
              -- metadata publish per subnet, failures independent
              let (pevs, completedSubnets, failedSubnets) := publishLoop o.publishOk jobId subnets
              let evs := evs ++ pevs
              -- deliver result (even on partial failure)
              let deliverable : AcpDeliverable :=
                { postUrl := postUrl
                  subnets := completedSubnets
                  txHash := mintResult.txHash
                  podId := mintResult.podId
                  basescanUrl := "https://basescan.org/tx/" ++ mintResult.txHash
                  failedSubnets := if failedSubnets.isEmpty then none else some failedSubnets }
              if o.deliverOk then
                let evs := evs ++ [Event.deliverEv jobId deliverable]
                -- checkpoint D: remove from WAL
                let st := { st with wal := removePendingJob o.persistWalOk st.wal jobId }
                { st := st, evs := evs ++ [Event.removePendingJobEv jobId] }
              else { st := st, evs := evs, thrown := some "deliver failed" }

/-- The accept-phase block of `handlePublishJob` (phase 0 or 1): fetch subnet
info (failure swallowed), formally accept when phase 0, write checkpoint A,
post the requirement; accept/requirement failures are caught and logged. -/
def acceptPhase (o : Oracle) (st : EngineState) (phase : Int)
    (jobId : String) (pj : PendingJob) : EngineState × List Event :=
  let evs := [Event.getSubnetsEv]
  if phase = 0 && !o.acceptOk then (st, evs)
  else
    let evs := if phase = 0 then evs ++ [Event.acceptEv jobId] else evs
    let st := { st with wal := savePendingJob o.persistWalOk st.wal pj }
    let evs := evs ++ [Event.savePendingJobEv jobId]
    if o.createReqOk then (st, evs ++ [Event.createRequirementEv jobId])
    else (st, evs)

/-- `handlePublishJob`, the phase controller plus execution pipeline for one
inbound notification. Returns the new engine state and the event trace. -/
def handlePublishJob (env : Env) (o : Oracle) (st : EngineState) (job : AcpJob) :
    EngineState × List Event :=
  let jobId := job.id.getD "unknown"
  -- silent skip of already-minted jobs
  if hasJobMinted st.dedup jobId then (st, [])
  else
    let content := parseJobContent job.memos
    -- validation before accepting
    if !(truthy content.postUrl) then
      (st, [Event.rejectEv jobId "Missing postUrl in job payload"])
    else
      match content.subnets with
      | none => (st, [Event.rejectEv jobId "Missing subnet in job payload"])
      | some sns0 =>
        if sns0.isEmpty then (st, [Event.rejectEv jobId "Missing subnet in job payload"])
        else if sns0.length > env.maxSubnets then
          (st, [Event.rejectEv jobId "Too many subnets. Maximum exceeded."])
        else
          match validateSubnets o sns0 with
          | .error reason => (st, [Event.rejectEv jobId reason])
          | .ok sns =>
            let postUrl := content.postUrl.getD ""
            if !(env.urlTest postUrl) then
              (st, [Event.rejectEv jobId ("Invalid X/Twitter URL: " ++ postUrl)])
            else
              let tweetId := env.tweetIdOf postUrl
              -- dedup before accepting
              if hasProcessed st.dedup tweetId then
                (st, [Event.rejectEv jobId ("Tweet " ++ tweetId ++ " already processed")])
              else
                -- processing lock
                match acquireProcessingLock st.dedup tweetId with
                | (none, _) => (st, [Event.acquireLockEv tweetId false])
                | (some _, dedup1) =>
                  let st := { st with dedup := dedup1 }
                  let evs := [Event.acquireLockEv tweetId true]
                  -- double-check dedup after acquiring the lock
                  if hasProcessed st.dedup tweetId then
                    let st := { st with dedup := releaseProcessingLock st.dedup tweetId }
                    (st, evs ++ [Event.releaseLockEv tweetId,
                      Event.rejectEv jobId ("Tweet " ++ tweetId ++ " already processed")])
                  else
                    let phase := job.phase.getD (-1)
                    if phase ≤ 1 then
                      let pj := mkPendingJob o.now jobId tweetId postUrl sns job content
                      let (st, aevs) := acceptPhase o st phase jobId pj
                      let st := { st with dedup := releaseProcessingLock st.dedup tweetId }
                      (st, evs ++ aevs ++ [Event.releaseLockEv tweetId])
                    else
                      -- checkpoint B: track the job if phases 0-1 were missed
                      let (st, evs) :=
                        if (getPendingJob st.wal jobId).isNone then
                          let pj := mkPendingJob o.now jobId tweetId postUrl sns job content
                          ({ st with wal := savePendingJob o.persistWalOk st.wal pj },
                            evs ++ [Event.savePendingJobEv jobId])
                        else (st, evs)
                      let res := paidWork env o st job jobId tweetId postUrl sns content
                      match res.thrown with
                      | none =>
                        -- finally: release the lock (idempotent re-release)
                        let st := { res.st with dedup := releaseProcessingLock res.st.dedup tweetId }
                        (st, evs ++ res.evs ++ [Event.releaseLockEv tweetId])
                      | some msg =>
                        -- checkpoint E: record the error for retry
                        let st := { res.st with
                          wal := recordPendingJobError o.persistWalOk o.now res.st.wal jobId msg }
                        let evs2 := res.evs ++ [Event.recordErrorEv jobId msg]
                        let evs2 := if strIncludes msg "Insufficient REPPO" then
                            evs2 ++ [Event.rejectEv jobId
                              "Insufficient REPPO to mint pod. Please try again later."]
                          else evs2
                        let st := { st with dedup := releaseProcessingLock st.dedup tweetId }
                        (st, evs ++ evs2 ++ [Event.releaseLockEv tweetId])

/-! ## `retryPendingJobs` (Recovery Runner) and process restart -/

/-- `ACCEPTED_MAX_AGE_MS`: 24 hours. -/
def ACCEPTED_MAX_AGE_MS : Nat := 86400000

/-- `COMPLETED_TTL_MS` from `pending-jobs.ts`: 7 days. -/
def COMPLETED_TTL_MS : Nat := 604800000

/-- The `accepted`-status branch of the retry loop body (inside its `try`). -/
def retryAccepted (env : Env) (o : Oracle) (st : EngineState) (pj : PendingJob) : WorkRes :=
  -- abandon jobs older than 24h
  if o.now - pj.createdAt > ACCEPTED_MAX_AGE_MS then
    let evs := if env.hasAcpContext then
        [Event.rejectEv pj.jobId "Job expired (accepted over 24h ago)"]
      else []
    { st := { st with wal := removePendingJob o.persistWalOk st.wal pj.jobId }
      evs := evs ++ [Event.removePendingJobEv pj.jobId] }
  else
    -- extractTweetId throws on an invalid URL
    if !(env.urlTest pj.postUrl) then
      { st := st, evs := [], thrown := some ("Invalid X/Twitter URL: " ++ pj.postUrl) }
    else
      let tweetId := env.tweetIdOf pj.postUrl
      -- item dedup re-check
      if hasProcessed st.dedup tweetId then
        let evs := if env.hasAcpContext then
            [Event.rejectEv pj.jobId ("Tweet " ++ tweetId ++ " already processed")]
          else []
        { st := { st with wal := removePendingJob o.persistWalOk st.wal pj.jobId }
          evs := evs ++ [Event.removePendingJobEv pj.jobId] }
      else
        match o.tweet with
        | .error e => { st := st, evs := [Event.fetchTweetEv tweetId], thrown := some e }
        | .ok _ =>
          let evs := [Event.fetchTweetEv tweetId]
          -- mint again, with no minted-set or durable-lookup check first
          let evs := evs ++ [Event.mintEv pj.jobId]
          match o.mint with
          | .error e => { st := st, evs := evs, thrown := some e }
          | .ok mintResult =>
            let st := { st with dedup := markJobMinted o.persistMintedOk st.dedup pj.jobId }
            let st := { st with dedup := markProcessed o.persistProcessedOk st.dedup tweetId }
            let evs := evs ++ [Event.markJobMintedEv pj.jobId, Event.markProcessedEv tweetId]
            let st := { st with wal := (updatePendingJobStatus o.persistWalOk o.now st.wal pj.jobId
              PendingJobStatus.minted (some mintResult.txHash) mintResult.podId) }
            let evs := evs ++ [Event.updateStatusEv pj.jobId PendingJobStatus.minted]
            let buyerWallet := pj.buyerId.getD "agent-wallet"
            let podStep : Option (EngineState × List Event) :=
              if natTruthy mintResult.podId then
                if o.savePodOk then
                  let pid := mintResult.podId.getD 0
                  some ({ st with pods := (savePodPut st.pods
                    { podId := pid, buyerWallet := buyerWallet,
                      mintTxHash := mintResult.txHash, jobId := some pj.jobId }) },
                    evs ++ [Event.savePodEv pid pj.jobId])
                else none
              else some (st, evs)
            match podStep with
            | none => { st := st, evs := evs, thrown := some "savePod failed" }
            | some (st, evs) =>
              let agentStep : Except String (EngineState × List Event) :=
                if truthy pj.buyerId && truthy pj.agentName then
                  match o.buyerAgent with
                  | .error e => .error e
                  | .ok _ => .ok (st, evs ++ [Event.buyerAgentEv pj.jobId])
                else .ok (st, evs)
              match agentStep with
              | .error e => { st := st, evs := evs, thrown := some e }
              | .ok (st, evs) =>
                let completed := pj.completedSubnets.getD []
                let remaining := pj.subnets.filter (fun s => !(completed.contains s))
                let (pevs, _, _) := publishLoop o.publishOk pj.jobId remaining
                let st := { st with wal := removePendingJob o.persistWalOk st.wal pj.jobId }
                { st := st, evs := evs ++ pevs ++ [Event.removePendingJobEv pj.jobId] }

/-- The `minted`-status branch of the retry loop body (inside its `try`): pod
exists on-chain, redo pod tracking and remaining metadata, then remove. -/
def retryMinted (env : Env) (o : Oracle) (st : EngineState) (pj : PendingJob) : WorkRes :=
  let buyerWallet := pj.buyerId.getD "agent-wallet"
  let podStep : Option (EngineState × List Event) :=
    if natTruthy pj.podId && truthy pj.mintTxHash then
      if o.savePodOk then
        let pid := pj.podId.getD 0
        some ({ st with pods := (savePodPut st.pods
          { podId := pid, buyerWallet := buyerWallet,
            mintTxHash := pj.mintTxHash.getD "", jobId := some pj.jobId }) },
          [Event.savePodEv pid pj.jobId])
      else none
    else some (st, [])
  match podStep with
  | none => { st := st, evs := [], thrown := some "savePod failed" }
  | some (st, evs) =>
    if !(env.urlTest pj.postUrl) then
      { st := st, evs := evs, thrown := some ("Invalid X/Twitter URL: " ++ pj.postUrl) }
    else
      let tweetId := env.tweetIdOf pj.postUrl
      match o.tweet with
      | .error e => { st := st, evs := evs ++ [Event.fetchTweetEv tweetId], thrown := some e }
      | .ok _ =>
        let evs := evs ++ [Event.fetchTweetEv tweetId]
        let agentStep : Except String (EngineState × List Event) :=
          if truthy pj.buyerId && truthy pj.agentName then
            match o.buyerAgent with
            | .error e => .error e
            | .ok _ => .ok (st, evs ++ [Event.buyerAgentEv pj.jobId])
          else .ok (st, evs)
        match agentStep with
        | .error e => { st := st, evs := evs, thrown := some e }
        | .ok (st, evs) =>
          let evs :=
            if truthy pj.mintTxHash then
              let completed := pj.completedSubnets.getD []
              let remaining := pj.subnets.filter (fun s => !(completed.contains s))
              let (pevs, _, _) := publishLoop o.publishOk pj.jobId remaining
              evs ++ pevs
            else evs
          let st := { st with wal := removePendingJob o.persistWalOk st.wal pj.jobId }
          { st := st, evs := evs ++ [Event.removePendingJobEv pj.jobId] }

/-- One iteration of the retry loop, with the per-job `try`/`catch`: a thrown
error is recorded on the entry and the loop moves on. -/
def retryOne (env : Env) (o : Oracle) (st : EngineState) (pj : PendingJob) :
    EngineState × List Event :=
  let res :=
    match pj.status with
    | .accepted => retryAccepted env o st pj
    | .minted => retryMinted env o st pj
    | .completed => { st := st, evs := [] }
  match res.thrown with
  | none => (res.st, res.evs)
  | some msg =>
    ({ res.st with wal := recordPendingJobError o.persistWalOk o.now res.st.wal pj.jobId msg },
      res.evs ++ [Event.recordErrorEv pj.jobId msg])

/-- `retryPendingJobs`: snapshot the non-completed entries, then process each
in turn (no within-pass retry). -/
def retryPendingJobs (env : Env) (o : Oracle) (st : EngineState) :
    EngineState × List Event :=
  let pending := getPendingJobs st.wal
  if pending.isEmpty then (st, [])
  else
    pending.foldl
      (fun acc pj =>
        let (st2, evs) := retryOne env o acc.1 pj
        (st2, acc.2 ++ evs))
      (st, ([] : List Event))

/-- A process restart: in-memory mirrors are rebuilt from the persisted files
(`initDedup`, `initPendingJobs` with its 7-day purge of completed entries),
locks are gone, and the external pods table survives untouched. -/
def restart (now : Nat) (st : EngineState) : EngineState :=
  { dedup := { processedMem := st.dedup.processedDisk
               processedDisk := st.dedup.processedDisk
               mintedMem := st.dedup.mintedDisk
               mintedDisk := st.dedup.mintedDisk
               locks := [] }
    wal := { mem := st.wal.disk.filter
               (fun j => !(j.status = PendingJobStatus.completed && now - j.updatedAt > COMPLETED_TTL_MS))
             disk := st.wal.disk }
    pods := st.pods }

/-! ## Event classifiers and concrete scenarios -/

/-- Is this a mint call event? -/
def isMintEv : Event → Bool
  | .mintEv _ => true
  | _ => false

/-- Is this a metadata-publish call event? -/
def isSubmitEv : Event → Bool
  | .submitMetadataEv _ _ _ => true
  | _ => false

/-- Is this a protocol delivery event? -/
def isDeliverEv : Event → Bool
  | .deliverEv _ _ => true
  | _ => false

/-- Is this a WAL removal event? -/
def isRemoveEv : Event → Bool
  | .removePendingJobEv _ => true
  | _ => false

/-- Side effects that a validation failure must not produce: creating a
work-log entry, acquiring the processing lock, or calling fetch, mint,
publish or deliver. -/
def isValidationForbidden : Event → Bool
  | .savePendingJobEv _ => true
  | .acquireLockEv _ true => true
  | .fetchTweetEv _ => true
  | .mintEv _ => true
  | .submitMetadataEv _ _ _ => true
  | .deliverEv _ _ => true
  | _ => false

/-- Environment with a permissive URL test, identity tweet-id extraction and
a cap of 5 categories per job. -/
def stdEnv : Env :=
  { urlTest := fun _ => true, tweetIdOf := fun u => u, maxSubnets := 5 }

/-- A memo carrying a post URL and a subnets array at top level. -/
def memoOf (url : String) (sns : List String) : Option JContent :=
  some { top := { postUrl := some url, subnets := some sns } }

/-- C1 scenario, phase-0 notification of job 7. -/
def c1Job0 : AcpJob := { id := some "7", phase := some 0, memos := [memoOf "p" ["s1"]] }

/-- C1 scenario, phase-2 (paid) notification of job 7. -/
def c1Job2 : AcpJob := { id := some "7", phase := some 2, memos := [memoOf "p" ["s1"]] }

/-- C1 oracle for the phase-0 run: everything works. -/
def c1o1 : Oracle :=
  { getSubnets := .error "down", tweet := .ok {},
    mint := .ok { txHash := "0xA", podId := some 3 } }

/-- C1 oracle for the paid run: the mint and the DynamoDB write succeed and
the minted-job dedup write lands, but the processed-set write and the WAL
writes fail (caught and logged by the stores, as designed). -/
def c1o2 : Oracle :=
  { c1o1 with persistWalOk := false, persistProcessedOk := false, now := 10 }

/-- C1 oracle for the post-restart recovery run. -/
def c1o3 : Oracle := { c1o1 with now := 20 }

/-- C1 phase-0 live run. -/
def c1Run1 : EngineState × List Event := handlePublishJob stdEnv c1o1 {} c1Job0

/-- C1 paid live run (mints once, delivers, but its checkpoints fail to
persist). -/
def c1Run2 : EngineState × List Event := handlePublishJob stdEnv c1o2 c1Run1.1 c1Job2

/-- C1 state after the process restarts: rebuilt from the persisted files. -/
def c1AfterRestart : EngineState := restart 20 c1Run2.1

/-- C1 recovery run after the restart. -/
def c1Recovery : EngineState × List Event := retryPendingJobs stdEnv c1o3 c1AfterRestart

/-- C1 combined event trace of the two live runs and the recovery run. -/
def c1Trace : List Event := c1Run1.2 ++ c1Run2.2 ++ c1Recovery.2

/-- C2 counterexample state: job 9 is already in the in-memory minted set. -/
def c2St : EngineState := { dedup := { mintedMem := ["9"] } }

/-- C2 counterexample job: payload entirely missing (no postUrl). -/
def c2Job : AcpJob := { id := some "9", phase := some 0, memos := [] }

/-- A work-log entry of status `minted` for job J with categories a and b and
the given recorded `completedSubnets`. -/
def walEntryMinted (cs : Option (List String)) : PendingJob :=
  { jobId := "J", tweetId := "t", postUrl := "t", subnets := ["a", "b"],
    status := .minted, mintTxHash := some "0xT", podId := some 1,
    completedSubnets := cs, createdAt := 0, updatedAt := 0 }

/-- Engine state holding exactly one minted work-log entry (in memory and on
disk). -/
def stMinted (cs : Option (List String)) : EngineState :=
  { wal := { mem := [walEntryMinted cs], disk := [walEntryMinted cs] } }

/-- C3 counterexample oracle: the tweet fetch is down, so each recovery pass
fails after the pod write and records the error. -/
def c3FailOracle : Oracle := { tweet := .error "down", now := 1 }

/-- C3 first recovery pass over the minted entry. -/
def c3R1 : EngineState × List Event := retryPendingJobs stdEnv c3FailOracle (stMinted none)

/-- C3 second recovery pass over the same entry. -/
def c3R2 : EngineState × List Event := retryPendingJobs stdEnv c3FailOracle c3R1.1

/-- C3: first recovery pass over the minted entry, arbitrary oracle. -/
def c3Pass1 (o : Oracle) : EngineState × List Event :=
  retryPendingJobs stdEnv o (stMinted none)

/-- C3: second recovery pass over whatever the first pass left, same
oracle. -/
def c3Pass2 (o : Oracle) : EngineState × List Event :=
  retryPendingJobs stdEnv o (c3Pass1 o).1

/-- C5 oracle: every external call succeeds. -/
def c5Oracle : Oracle :=
  { tweet := .ok {}, mint := .ok { txHash := "0xZ" }, now := 1 }

/-- C5 recovery run over a minted entry with no categories recorded. -/
def c5Run : EngineState × List Event := retryPendingJobs stdEnv c5Oracle (stMinted none)

/-- C6 pods-table record showing job 6 already minted durably. -/
def c6Pod : PodRecord :=
  { podId := 9, buyerWallet := "w", mintTxHash := "0xC", jobId := some "6" }

/-- C6 state: the durable lookup will find job 6, but the in-memory minted
set is empty (e.g. after a restart whose dedup write had been lost). -/
def c6St : EngineState := { pods := [c6Pod] }

/-- C6 job: a fully valid paid job whose id is already minted durably. -/
def c6Job : AcpJob := { id := some "6", phase := some 2, memos := [memoOf "u" ["a"]] }

/-- C6 oracle: all external calls succeed. -/
def c6Oracle : Oracle :=
  { getSubnets := .error "down", tweet := .ok {}, mint := .ok { txHash := "0xZ" } }

/-- C6 run of the handler on the durably-minted job. -/
def c6Run : EngineState × List Event := handlePublishJob stdEnv c6Oracle c6St c6Job

/-- C4 oracle, parameterized by the per-category publish outcome and the
delivery outcome; everything upstream succeeds. -/
def c4Oracle (pubOk : String → Bool) (d : Bool) : Oracle :=
  { getSubnets := .error "down", tweet := .ok {},
    mint := .ok { txHash := "0xA", podId := some 3 },
    publishOk := pubOk, deliverOk := d, now := 5 }

/-- C4 job: valid paid job over the given target categories. -/
def c4Job (sns : List String) : AcpJob :=
  { id := some "4", phase := some 2, memos := [memoOf "u" sns] }

/-- C4 run of the handler from an empty engine state. -/
def c4Run (sns : List String) (pubOk : String → Bool) (d : Bool) :
    EngineState × List Event :=
  handlePublishJob stdEnv (c4Oracle pubOk d) {} (c4Job sns)

/-- The deliverable the paid pipeline hands to the protocol for the C4 run:
succeeded categories, and failed categories exactly when some failed. -/
def c4Deliverable (sns : List String) (pubOk : String → Bool) : AcpDeliverable :=
  { postUrl := "u"
    subnets := sns.filter pubOk
    txHash := "0xA"
    podId := some 3
    basescanUrl := "https://basescan.org/tx/0xA"
    failedSubnets :=
      if (sns.filter (fun s => !(pubOk s))).isEmpty then none
      else some (sns.filter (fun s => !(pubOk s))) }

/-! ## Helper lemmas -/

theorem mem_insertIfAbsent (l : List String) (x : String) : x ∈ insertIfAbsent l x := by
  by_cases h : x ∈ l
  · simp only [insertIfAbsent]
    split
    · exact h
    · exact List.mem_append_left _ h
  · simp [insertIfAbsent, h]

/-! ## Claim theorems -/

/-- C7: the mutual-exclusion gate grants at most one outstanding acquisition
per key: while a key is held, a further `acquireProcessingLock` for that key
returns the busy result (`none`) leaving the state untouched; a free key is
granted; and after the release handle runs, acquisition succeeds again. -/
theorem c7_processing_lock_exclusive (st : DedupState) (k : String) :
    (st.locks.contains k = true → acquireProcessingLock st k = (none, st)) ∧
    (st.locks.contains k = false →
      (acquireProcessingLock st k).1 = some () ∧
      acquireProcessingLock (acquireProcessingLock st k).2 k =
        (none, (acquireProcessingLock st k).2)) ∧
    (acquireProcessingLock
      (releaseProcessingLock (acquireProcessingLock st k).2 k) k).1 = some () := by
  by_cases hm : k ∈ st.locks
  · refine ⟨fun _ => by simp [acquireProcessingLock, hm], fun hc => ?_, ?_⟩
    · simp [hm] at hc
    · simp [acquireProcessingLock, releaseProcessingLock, hm, List.mem_filter]
  · refine ⟨fun hc => ?_, fun _ => ?_, ?_⟩
    · simp [hm] at hc
    · constructor
      · simp [acquireProcessingLock, hm]
      · simp [acquireProcessingLock, hm]
    · simp [acquireProcessingLock, releaseProcessingLock, hm, List.mem_filter]

/-- C7 witness: on an empty lock state, key k is granted, a second
acquisition is busy, and after release it is granted again. -/
theorem c7_witness :
    (acquireProcessingLock ({} : DedupState) "k").1 = some () ∧
    acquireProcessingLock (acquireProcessingLock ({} : DedupState) "k").2 "k" =
      (none, (acquireProcessingLock ({} : DedupState) "k").2) ∧
    (acquireProcessingLock
      (releaseProcessingLock (acquireProcessingLock ({} : DedupState) "k").2 "k") "k").1 =
      some () :=
  ⟨((c7_processing_lock_exclusive {} "k").2.1 (by decide)).1,
   ((c7_processing_lock_exclusive {} "k").2.1 (by decide)).2,
   (c7_processing_lock_exclusive {} "k").2.2⟩

/-- C8: `markProcessed` and `markJobMinted` update the in-memory mirror first
and never propagate a durable-persistence failure (both are total functions
whose catch branch leaves the disk untouched); afterwards `hasProcessed` /
`hasJobMinted` answer true even when the durable write failed. -/
theorem c8_mark_updates_memory_first (pOk jOk : Bool) (st : DedupState) (t j : String) :
    hasProcessed (markProcessed pOk st t) t = true ∧
    (pOk = false → (markProcessed pOk st t).processedDisk = st.processedDisk) ∧
    hasJobMinted (markJobMinted jOk st j) j = true ∧
    (jOk = false → (markJobMinted jOk st j).mintedDisk = st.mintedDisk) := by
  refine ⟨?_, ?_, ?_, ?_⟩
  · unfold markProcessed hasProcessed
    by_cases hp : pOk
    · simp only [if_pos hp]
      split
      · simp [mem_insertIfAbsent]
      · split <;> simp [mem_insertIfAbsent]
    · simp only [if_neg hp]
      simp [mem_insertIfAbsent]
  · intro hp
    simp [markProcessed, hp]
  · unfold markJobMinted hasJobMinted
    by_cases hj : jOk
    · simp only [if_pos hj]
      split <;> simp [mem_insertIfAbsent]
    · simp only [if_neg hj]
      simp [mem_insertIfAbsent]
  · intro hj
    simp [markJobMinted, hj]

/-- C8 witness: with the durable write failing, the item and the job are
still visible as processed and minted, and the disk files are untouched. -/
theorem c8_witness :
    hasProcessed (markProcessed false ({} : DedupState) "t") "t" = true ∧
    (markProcessed false ({} : DedupState) "t").processedDisk = [] ∧
    hasJobMinted (markJobMinted false ({} : DedupState) "j") "j" = true ∧
    (markJobMinted false ({} : DedupState) "j").mintedDisk = [] :=
  ⟨(c8_mark_updates_memory_first false false {} "t" "j").1,
   (c8_mark_updates_memory_first false false {} "t" "j").2.1 rfl,
   (c8_mark_updates_memory_first false false {} "t" "j").2.2.1,
   (c8_mark_updates_memory_first false false {} "t" "j").2.2.2 rfl⟩

/-- C10: for a jobId with no work-log entry, `updatePendingJobStatus` and
`recordPendingJobError` are complete no-ops: state (memory and disk) is
returned unchanged and no error is raised. -/
theorem c10_unknown_job_checkpoints_noop (walOk : Bool) (now : Nat) (st : WalState)
    (jobId : String) (status : PendingJobStatus) (tx : Option String) (pid : Option Nat)
    (msg : String) (h : getPendingJob st jobId = none) :
    updatePendingJobStatus walOk now st jobId status tx pid = st ∧
    recordPendingJobError walOk now st jobId msg = st := by
  unfold updatePendingJobStatus recordPendingJobError
  rw [h]
  exact ⟨rfl, rfl⟩

/-- C10 witness: on an empty work log, a status checkpoint and an error
record for job 1 are both dropped. -/
theorem c10_witness :
    updatePendingJobStatus true 3 {} "1" PendingJobStatus.minted (some "0x") none = {} ∧
    recordPendingJobError true 3 ({} : WalState) "1" "boom" = {} :=
  c10_unknown_job_checkpoints_noop true 3 {} "1" PendingJobStatus.minted (some "0x") none
    "boom" (by decide)

/-- C1 (the code at the failing input): job 7 is minted by the live paid run
— whose minted-set write lands durably while the processed-set and work-log
writes fail, failures the stores catch by design — and after a restart the
rebuilt state knows the job is minted (`hasJobMinted` is true and the durable
pods lookup finds it), yet the recovery runner mints job 7 a second time:
the combined trace holds two mint calls. -/
theorem c1_recovery_double_mint :
    hasJobMinted c1AfterRestart.dedup "7" = true ∧
    (getJobMint c1AfterRestart.pods "7").isSome = true ∧
    (c1Trace.filter isMintEv).length = 2 := by decide

/-- C2 counterexample: a job whose payload is missing `postUrl` but whose id
is already in the minted set is not rejected at all — the handler returns
silently with an empty trace. -/
theorem c2_already_minted_rejects_nothing :
    (parseJobContent c2Job.memos).postUrl = none ∧
    handlePublishJob stdEnv {} c2St c2Job = (c2St, []) := by
  exact ⟨rfl, rfl⟩

/-- C3 counterexample: with the tweet fetch failing, one recovery pass over a
minted entry leaves `retryCount = 1` and a second pass leaves
`retryCount = 2` — running the runner twice does not produce the same end
state as running it once. -/
theorem c3_retry_twice_not_same_state :
    (getPendingJob c3R1.1.wal "J").map (fun j => j.retryCount) = some 1 ∧
    (getPendingJob c3R2.1.wal "J").map (fun j => j.retryCount) = some 2 ∧
    c3R2.1 ≠ c3R1.1 := by decide

/-- C5 counterexample: recovering a minted entry whose every external call
succeeds publishes the categories and removes the entry but never calls the
protocol's deliver — there is no delivery event in the whole trace. -/
theorem c5_minted_retry_never_delivers :
    c5Run.2.filter isDeliverEv = [] ∧
    c5Run.2.filter isMintEv = [] ∧
    Event.removePendingJobEv "J" ∈ c5Run.2 ∧
    getPendingJob c5Run.1.wal "J" = none := by decide

/-- C6 counterexample: a paid job whose id the durable pods lookup already
knows is skipped outright — the handler records the mint in the minted set
and returns; no metadata publish and no delivery happen, contrary to the
claimed skip-to-publish behavior. -/
theorem c6_durable_hit_skips_publish_and_delivery :
    Event.getJobMintEv "6" ∈ c6Run.2 ∧
    Event.markJobMintedEv "6" ∈ c6Run.2 ∧
    c6Run.2.filter isSubmitEv = [] ∧
    c6Run.2.filter isDeliverEv = [] ∧
    c6Run.2.filter isMintEv = [] := by decide

theorem mem_persistWithLock (f : Bool) (w : WalState) : (persistWithLock f w).mem = w.mem := by
  cases f <;> simp [persistWithLock]

theorem getPendingJob_persistWithLock (f : Bool) (w : WalState) (j : String) :
    getPendingJob (persistWithLock f w) j = getPendingJob w j := by
  cases f <;> simp [persistWithLock, getPendingJob]

theorem getPendingJobs_persistWithLock (f : Bool) (w : WalState) :
    getPendingJobs (persistWithLock f w) = getPendingJobs w := by
  cases f <;> simp [persistWithLock, getPendingJobs]

theorem retryPendingJobs_of_empty (env : Env) (o : Oracle) (st : EngineState)
    (h : getPendingJobs st.wal = []) : retryPendingJobs env o st = (st, []) := by
  simp [retryPendingJobs, h]

theorem parseMemoStep_postUrl_keep (r : ParsedJobContent) (m : Option JContent)
    (h : truthy r.postUrl = true) : (parseMemoStep r m).postUrl = r.postUrl := by
  cases m with
  | none => rfl
  | some c => simp [parseMemoStep, h]

theorem parseMemoStep_subnets_keep (r : ParsedJobContent) (m : Option JContent)
    (h : r.subnets.isSome = true) : (parseMemoStep r m).subnets = r.subnets := by
  cases m with
  | none => rfl
  | some c => simp [parseMemoStep, h]

theorem foldl_parse_postUrl_keep (ms : List (Option JContent)) (r : ParsedJobContent)
    (h : truthy r.postUrl = true) :
    (List.foldl parseMemoStep r ms).postUrl = r.postUrl := by
  induction ms generalizing r with
  | nil => rfl
  | cons m rest ih =>
    have hk := parseMemoStep_postUrl_keep r m h
    have ht : truthy (parseMemoStep r m).postUrl = true := by rw [hk]; exact h
    rw [List.foldl_cons, ih _ ht, hk]

theorem foldl_parse_subnets_keep (ms : List (Option JContent)) (r : ParsedJobContent)
    (h : r.subnets.isSome = true) :
    (List.foldl parseMemoStep r ms).subnets = r.subnets := by
  induction ms generalizing r with
  | nil => rfl
  | cons m rest ih =>
    have hk := parseMemoStep_subnets_keep r m h
    have ht : (parseMemoStep r m).subnets.isSome = true := by rw [hk]; exact h
    rw [List.foldl_cons, ih _ ht, hk]

/-- C3 (amended): re-running the Recovery Runner a second time on the same
minted work-log entry never mints (the minted branch contains no mint call in
either pass) and never re-publishes a category the first pass published: once
the first pass reaches the publish loop it removes the entry, so the second
pass is a no-op returning the state unchanged. When the first pass fails
before the publish loop, no category was published at all, and each failing
pass bumps the entry's `retryCount` — the end state of two passes is then not
identical to one pass's. The published-category set is not recorded on the
entry at per-category checkpoints: the `completedSubnets` field the runner
filters on is never written by any code path. -/
theorem c3_recovery_idempotent_amended (o : Oracle) :
    ((c3Pass1 o).2 ++ (c3Pass2 o).2).filter isMintEv = [] ∧
    (∀ s b, Event.submitMetadataEv "J" s b ∈ (c3Pass1 o).2 →
      Event.submitMetadataEv "J" s b ∉ (c3Pass2 o).2) ∧
    (getPendingJob (c3Pass1 o).1.wal "J" = none →
      c3Pass2 o = ((c3Pass1 o).1, [])) := by
  by_cases hsp : o.savePodOk
  · cases ht : o.tweet with
    | error e =>
      refine ⟨?_, ?_, ?_⟩
      · simp [c3Pass1, c3Pass2, retryPendingJobs, getPendingJobs, retryOne, retryMinted, stMinted,
          walEntryMinted, stdEnv, recordPendingJobError, getPendingJob, getPendingJob_persistWithLock, mem_persistWithLock,
          getPendingJobs_persistWithLock, natTruthy, truthy, hsp, ht, isMintEv]
      · intro s b hmem
        simp [c3Pass1, retryPendingJobs, getPendingJobs, retryOne, retryMinted, stMinted,
          walEntryMinted, stdEnv, recordPendingJobError, natTruthy, truthy, hsp, ht] at hmem
      · intro h
        exfalso
        simp [c3Pass1, retryPendingJobs, getPendingJobs, retryOne, retryMinted, stMinted,
          walEntryMinted, stdEnv, recordPendingJobError, getPendingJob, getPendingJob_persistWithLock, mem_persistWithLock,
          natTruthy, truthy, hsp, ht] at h
    | ok tw =>
      refine ⟨?_, ?_, ?_⟩
      · cases hpa : o.publishOk "a" <;> cases hpb : o.publishOk "b" <;>
          simp [c3Pass1, c3Pass2, retryPendingJobs, getPendingJobs, retryOne, retryMinted, stMinted,
            walEntryMinted, stdEnv, removePendingJob, getPendingJob, getPendingJob_persistWithLock,
            mem_persistWithLock, getPendingJobs_persistWithLock, natTruthy, truthy, hsp, ht, hpa,
            hpb, isMintEv, publishLoop]
      · intro s b hmem
        cases hpa : o.publishOk "a" <;> cases hpb : o.publishOk "b" <;>
          simp [c3Pass2, c3Pass1, retryPendingJobs, getPendingJobs, retryOne, retryMinted, stMinted,
            walEntryMinted, stdEnv, removePendingJob, getPendingJobs_persistWithLock,
            mem_persistWithLock, natTruthy, truthy, hsp, ht, hpa, hpb, publishLoop]
      · intro h
        apply retryPendingJobs_of_empty
        cases hpa : o.publishOk "a" <;> cases hpb : o.publishOk "b" <;>
          simp [c3Pass1, retryPendingJobs, getPendingJobs, retryOne, retryMinted, stMinted,
            walEntryMinted, stdEnv, removePendingJob, getPendingJobs_persistWithLock,
            mem_persistWithLock, natTruthy, truthy, hsp, ht, hpa, hpb, publishLoop]
  · refine ⟨?_, ?_, ?_⟩
    · simp [c3Pass1, c3Pass2, retryPendingJobs, getPendingJobs, retryOne, retryMinted, stMinted,
        walEntryMinted, stdEnv, recordPendingJobError, getPendingJob, getPendingJob_persistWithLock, mem_persistWithLock,
        getPendingJobs_persistWithLock, natTruthy, truthy, hsp, isMintEv]
    · intro s b hmem
      simp [c3Pass1, retryPendingJobs, getPendingJobs, retryOne, retryMinted, stMinted,
        walEntryMinted, stdEnv, recordPendingJobError, natTruthy, truthy, hsp] at hmem
    · intro h
      exfalso
      simp [c3Pass1, retryPendingJobs, getPendingJobs, retryOne, retryMinted, stMinted,
        walEntryMinted, stdEnv, recordPendingJobError, getPendingJob, getPendingJob_persistWithLock, mem_persistWithLock,
        natTruthy, truthy, hsp] at h


/-- C3 witness: with every external call succeeding, the first pass removes
the entry and the second pass is a literal no-op. -/
theorem c3_witness :
    c3Pass2 { tweet := Except.ok {}, now := 1 } =
      ((c3Pass1 { tweet := Except.ok {}, now := 1 }).1, []) :=
  (c3_recovery_idempotent_amended { tweet := Except.ok {}, now := 1 }).2.2 (by decide)

/-- C9 counterexample: the parser does not deduplicate category input — a
memo with the subnets array `["a", "a"]` parses to `["a", "a"]`, not to the
deduplicated `["a"]`. -/
theorem c9_parser_keeps_duplicates :
    (parseJobContent [some { requirement := none, top := { subnets := some ["a", "a"] } }]).subnets
      = some ["a", "a"] ∧
    dedupFirst ["a", "a"] = ["a"] ∧ (["a", "a"] : List String) ≠ ["a"] := by decide

/-- C9 (amended): the parser scans all memos with first-non-empty-wins
semantics for `postUrl` and first-present-wins for `subnets` (later memos
never overwrite), reads the nested requirement wrapper with a top-level
fallback, and normalizes category input — an explicit array or a
comma-separated string — into an ordered list of trimmed, non-empty strings,
without deduplication (ids are deduplicated later, in the handler's subnet
validation). It is a pure function of the memo list. -/
theorem c9_parser_amended (ms ms2 : List (Option JContent)) (f t : JFields)
    (xs : List String) (s : String) :
    (truthy (parseJobContent ms).postUrl = true →
      (parseJobContent (ms ++ ms2)).postUrl = (parseJobContent ms).postUrl) ∧
    ((parseJobContent ms).subnets.isSome = true →
      (parseJobContent (ms ++ ms2)).subnets = (parseJobContent ms).subnets) ∧
    ((parseJobContent [some { requirement := some f, top := t }]).postUrl =
      if truthy f.postUrl then f.postUrl
      else if truthy t.postUrl then t.postUrl else none) ∧
    ((parseJobContent [some { requirement := none, top := { subnets := some xs } }]).subnets =
      some ((xs.map jsTrim).filter (fun x => x ≠ ""))) ∧
    (jsTrim s ≠ "" →
      (parseJobContent [some { requirement := none, top := { subnet := some s } }]).subnets =
        some (((jsSplitComma s).map jsTrim).filter (fun x => x ≠ ""))) := by
  refine ⟨?_, ?_, ?_, ?_, ?_⟩
  · intro h
    show (List.foldl parseMemoStep {} (ms ++ ms2)).postUrl = _
    rw [List.foldl_append]
    exact foldl_parse_postUrl_keep ms2 (parseJobContent ms) h
  · intro h
    show (List.foldl parseMemoStep {} (ms ++ ms2)).subnets = _
    rw [List.foldl_append]
    exact foldl_parse_subnets_keep ms2 (parseJobContent ms) h
  · simp [parseJobContent, parseMemoStep, truthy]
  · simp [parseJobContent, parseMemoStep, normalizeSubnets]
  · intro h
    simp [parseJobContent, parseMemoStep, normalizeSubnets, h]

/-- C9 witness: with a first memo already carrying a post URL and subnets, a
second memo does not overwrite them; and a comma-separated subnet string
splits into trimmed parts. -/
theorem c9_witness :
    (parseJobContent ([memoOf "u" ["a"]] ++ [memoOf "v" ["b"]])).postUrl =
      (parseJobContent [memoOf "u" ["a"]]).postUrl ∧
    (parseJobContent [some { requirement := none, top := { subnet := some "x, y" } }]).subnets =
      some (((jsSplitComma "x, y").map jsTrim).filter (fun x => x ≠ "")) :=
  ⟨(c9_parser_amended [memoOf "u" ["a"]] [memoOf "v" ["b"]] {} {} [] "x, y").1 (by decide),
   (c9_parser_amended [memoOf "u" ["a"]] [memoOf "v" ["b"]] {} {} [] "x, y").2.2.2.2 (by decide)⟩

theorem publishLoop_eq (pubOk : String → Bool) (j : String) (l : List String) :
    publishLoop pubOk j l =
      (l.map (fun s => Event.submitMetadataEv j s (pubOk s)),
        l.filter pubOk, l.filter (fun s => !(pubOk s))) := by
  induction l with
  | nil => rfl
  | cons s rest ih =>
    simp only [publishLoop, ih]
    cases h : pubOk s <;> simp [h]

/-- C5 (amended): on startup, a work-log entry of status Minted is re-run
from the publish step onward only — the pod record is re-written, categories
not in the entry's recorded `completedSubnets` set are re-published (each
getting exactly one publish call with its own outcome), no second mint
happens, and the entry is removed — but no result is delivered to the
protocol: the minted retry branch never calls deliver. -/
theorem c5_minted_retry_amended (cs : List String) (o : Oracle) (tw : TweetData)
    (ht : o.tweet = Except.ok tw) (hsp : o.savePodOk = true) :
    (retryPendingJobs stdEnv o (stMinted (some cs))).2.filter isMintEv = [] ∧
    (retryPendingJobs stdEnv o (stMinted (some cs))).2.filter isSubmitEv =
      (["a", "b"].filter (fun s => !(cs.contains s))).map
        (fun s => Event.submitMetadataEv "J" s (o.publishOk s)) ∧
    (retryPendingJobs stdEnv o (stMinted (some cs))).2.filter isDeliverEv = [] ∧
    Event.removePendingJobEv "J" ∈ (retryPendingJobs stdEnv o (stMinted (some cs))).2 ∧
    getPendingJob (retryPendingJobs stdEnv o (stMinted (some cs))).1.wal "J" = none := by
  refine ⟨?_, ?_, ?_, ?_, ?_⟩ <;>
    by_cases hca : "a" ∈ cs <;> by_cases hcb : "b" ∈ cs <;>
      simp [retryPendingJobs, getPendingJobs, retryOne, retryMinted, stMinted, walEntryMinted,
        stdEnv, removePendingJob, getPendingJob, getPendingJob_persistWithLock,
        mem_persistWithLock, getPendingJobs_persistWithLock, natTruthy, truthy, hsp, ht,
        hca, hcb, isMintEv, isSubmitEv, isDeliverEv, publishLoop_eq]


/-- C5 witness: with category a recorded as published, recovery republishes
only b, delivers nothing, and removes the entry. -/
theorem c5_witness :
    (retryPendingJobs stdEnv c5Oracle (stMinted (some ["a"]))).2.filter isSubmitEv =
      [Event.submitMetadataEv "J" "b" true] ∧
    (retryPendingJobs stdEnv c5Oracle (stMinted (some ["a"]))).2.filter isDeliverEv = [] ∧
    getPendingJob (retryPendingJobs stdEnv c5Oracle (stMinted (some ["a"]))).1.wal "J" = none :=
  ⟨(c5_minted_retry_amended ["a"] c5Oracle {} rfl rfl).2.1,
   (c5_minted_retry_amended ["a"] c5Oracle {} rfl rfl).2.2.1,
   (c5_minted_retry_amended ["a"] c5Oracle {} rfl rfl).2.2.2.2⟩

/-- C6 (amended): a job whose id is already in the in-memory minted set is
skipped silently — the handler returns the state unchanged with no events;
and when the in-memory set misses but the durable pods lookup finds the job,
the handler records the job in the minted set and returns. In neither case
does execution skip to the metadata-publish step: no publish and no delivery
happen for an already-minted job, and its work-log entry stays behind. -/
theorem c6_already_minted_amended (env : Env) (o : Oracle) (st : EngineState) (job : AcpJob)
    (h : hasJobMinted st.dedup (job.id.getD "unknown") = true) :
    handlePublishJob env o st job = (st, []) ∧
    (Event.markJobMintedEv "6" ∈ c6Run.2 ∧ hasJobMinted c6Run.1.dedup "6" = true ∧
      c6Run.2.filter isMintEv = [] ∧ c6Run.2.filter isSubmitEv = [] ∧
      c6Run.2.filter isDeliverEv = [] ∧ (getPendingJob c6Run.1.wal "6").isSome = true) := by
  refine ⟨?_, by decide⟩
  simp [handlePublishJob, h]

/-- C6 witness: a job whose id 8 is in the minted set is skipped silently. -/
theorem c6_witness :
    handlePublishJob stdEnv {} { dedup := { mintedMem := ["8"] } } { id := some "8" } =
      ({ dedup := { mintedMem := ["8"] } }, []) :=
  (c6_already_minted_amended stdEnv {} { dedup := { mintedMem := ["8"] } } { id := some "8" }
    (by decide)).1

/-- C2 (amended): for an inbound job that is not already in the minted set,
a payload missing `postUrl`, missing or empty categories, or carrying a
malformed URL is rejected with a specific reason, and the handler returns
with the engine state untouched: no work-log entry is created, the processing
lock is never acquired, and fetch, mint, publish and deliver are never called.
(A job already in the minted set returns silently without rejecting — see the
counterexample.) -/
theorem c2_validation_no_side_effects (env : Env) (o : Oracle) (st : EngineState) (job : AcpJob)
    (hnm : hasJobMinted st.dedup (job.id.getD "unknown") = false)
    (hbad : truthy (parseJobContent job.memos).postUrl = false
      ∨ (parseJobContent job.memos).subnets = none
      ∨ (parseJobContent job.memos).subnets = some []
      ∨ env.urlTest ((parseJobContent job.memos).postUrl.getD "") = false) :
    (handlePublishJob env o st job).1 = st ∧
    (∃ r, Event.rejectEv (job.id.getD "unknown") r ∈ (handlePublishJob env o st job).2) ∧
    (handlePublishJob env o st job).2.all (fun e => !(isValidationForbidden e)) = true := by
  by_cases hpu : truthy (parseJobContent job.memos).postUrl = true
  case neg =>
    rw [Bool.not_eq_true] at hpu
    refine ⟨?_, ⟨"Missing postUrl in job payload", ?_⟩, ?_⟩ <;>
      simp [handlePublishJob, hnm, hpu, isValidationForbidden]
  case pos =>
    rcases hbad with h1 | h2 | h3 | h4
    · rw [h1] at hpu; cases hpu
    · refine ⟨?_, ⟨"Missing subnet in job payload", ?_⟩, ?_⟩ <;>
        simp [handlePublishJob, hnm, hpu, h2, isValidationForbidden]
    · refine ⟨?_, ⟨"Missing subnet in job payload", ?_⟩, ?_⟩ <;>
        simp [handlePublishJob, hnm, hpu, h3, isValidationForbidden]
    · cases hsn : (parseJobContent job.memos).subnets with
      | none =>
        refine ⟨?_, ⟨"Missing subnet in job payload", ?_⟩, ?_⟩ <;>
          simp [handlePublishJob, hnm, hpu, hsn, isValidationForbidden]
      | some l =>
        cases l with
        | nil =>
          refine ⟨?_, ⟨"Missing subnet in job payload", ?_⟩, ?_⟩ <;>
            simp [handlePublishJob, hnm, hpu, hsn, isValidationForbidden]
        | cons a as =>
          by_cases hlen : env.maxSubnets < as.length + 1
          · refine ⟨?_, ⟨"Too many subnets. Maximum exceeded.", ?_⟩, ?_⟩ <;>
              simp [handlePublishJob, hnm, hpu, hsn, hlen, isValidationForbidden]
          · cases hv : validateSubnets o (a :: as) with
            | error r =>
              refine ⟨?_, ⟨r, ?_⟩, ?_⟩ <;>
                simp [handlePublishJob, hnm, hpu, hsn, hlen, hv, isValidationForbidden]
            | ok sns =>
              refine ⟨?_,
                  ⟨"Invalid X/Twitter URL: " ++ (parseJobContent job.memos).postUrl.getD "", ?_⟩,
                  ?_⟩ <;>
                simp [handlePublishJob, hnm, hpu, hsn, hlen, hv, h4, isValidationForbidden]


/-- C2 witness: a job with an empty payload is rejected with no state change
and no forbidden side effect. -/
theorem c2_witness :
    (handlePublishJob stdEnv {} {} { id := some "2", memos := [] }).1 = ({} : EngineState) ∧
    (∃ r, Event.rejectEv "2" r ∈ (handlePublishJob stdEnv {} {} { id := some "2", memos := [] }).2) ∧
    (handlePublishJob stdEnv {} {} { id := some "2", memos := [] }).2.all
      (fun e => !(isValidationForbidden e)) = true :=
  c2_validation_no_side_effects stdEnv {} {} { id := some "2", memos := [] } (by decide)
    (Or.inl (by decide))

theorem normalize_fixed (sns : List String) (h : ∀ s ∈ sns, jsTrim s = s ∧ s ≠ "") :
    (sns.map jsTrim).filter (fun x => x ≠ "") = sns := by
  induction sns with
  | nil => rfl
  | cons a rest ih =>
    have ha := h a (List.mem_cons_self a rest)
    have hr := ih (fun s hs => h s (List.mem_cons_of_mem a hs))
    simp at hr
    simp [ha.1, ha.2, hr]

theorem parse_single_memo (u : String) (sns : List String)
    (h : ∀ s ∈ sns, jsTrim s = s ∧ s ≠ "") (hu : u ≠ "") :
    parseJobContent [memoOf u sns] =
      { postUrl := some u, subnets := some sns } := by
  have hn := normalize_fixed sns h
  simp at hn
  simp [parseJobContent, parseMemoStep, memoOf, normalizeSubnets, truthy, hu, hn]

theorem no_remove_map_submit (j : String) (b : String → Bool) (l : List String) :
    (l.map (fun s => Event.submitMetadataEv j s (b s))).all (fun e => !(isRemoveEv e)) = true := by
  induction l with
  | nil => rfl
  | cons s rest ih => simp [isRemoveEv, ih]

/-- C4: after a successful mint, every target category gets its own metadata
publish attempt whose failure is caught independently (the trace equation
shows one publish event per category, none blocking the rest), the result is
still delivered carrying the succeeded categories and — exactly when some
failed — the failed list (`c4Deliverable`), and the work-log entry is removed
only after that delivery: it is removed right after the delivery event when
delivery succeeds, and when delivery fails there is no removal and the entry
survives. -/
theorem c4_partial_failure_delivery (sns : List String) (pubOk : String → Bool)
    (h : ∀ s ∈ sns, jsTrim s = s ∧ s ≠ "") (hne : sns ≠ []) (hlen : sns.length ≤ 5) :
    ((c4Run sns pubOk true).2 =
      [Event.acquireLockEv "u" true, Event.savePendingJobEv "4", Event.fetchTweetEv "u",
        Event.getJobMintEv "4", Event.mintEv "4", Event.markJobMintedEv "4",
        Event.markProcessedEv "u", Event.updateStatusEv "4" PendingJobStatus.minted,
        Event.savePodEv 3 "4"] ++
      (sns.map (fun s => Event.submitMetadataEv "4" s (pubOk s))) ++
      [Event.deliverEv "4" (c4Deliverable sns pubOk), Event.removePendingJobEv "4",
        Event.releaseLockEv "u"]) ∧
    (∀ s ∈ sns, Event.submitMetadataEv "4" s (pubOk s) ∈ (c4Run sns pubOk true).2) ∧
    getPendingJob (c4Run sns pubOk true).1.wal "4" = none ∧
    (c4Run sns pubOk false).2.all (fun e => !(isRemoveEv e)) = true ∧
    (getPendingJob (c4Run sns pubOk false).1.wal "4").isSome = true := by
  have hie : sns.isEmpty = false := by cases sns with | nil => exact absurd rfl hne | cons a l => rfl
  have hlen2 : ¬ (5 < sns.length) := by omega
  have hparse := parse_single_memo "u" sns h (by decide)
  have hsi : strIncludes "deliver failed" "Insufficient REPPO" = false := by decide
  have heq : (c4Run sns pubOk true).2 =
      [Event.acquireLockEv "u" true, Event.savePendingJobEv "4", Event.fetchTweetEv "u",
        Event.getJobMintEv "4", Event.mintEv "4", Event.markJobMintedEv "4",
        Event.markProcessedEv "u", Event.updateStatusEv "4" PendingJobStatus.minted,
        Event.savePodEv 3 "4"] ++
      (sns.map (fun s => Event.submitMetadataEv "4" s (pubOk s))) ++
      [Event.deliverEv "4" (c4Deliverable sns pubOk), Event.removePendingJobEv "4",
        Event.releaseLockEv "u"] := by
    simp [c4Run, handlePublishJob, c4Job, c4Oracle, hparse, truthy, stdEnv, hie, hlen2,
      validateSubnets, paidWork, hasJobMinted, hasProcessed, acquireProcessingLock,
      getPendingJob, savePendingJob, walUpsert, persistWithLock, mkPendingJob, getBuyerId,
      getJobMint, updatePendingJobStatus, natTruthy, savePodPut, publishLoop_eq,
      removePendingJob, c4Deliverable, markJobMinted, markProcessed, insertIfAbsent,
      releaseProcessingLock, strIncludes]
  refine ⟨heq, ?_, ?_, ?_, ?_⟩
  · intro s hs
    rw [heq]
    exact List.mem_append_left _ (List.mem_append_right _ (List.mem_map_of_mem _ hs))
  · simp [c4Run, handlePublishJob, c4Job, c4Oracle, hparse, truthy, stdEnv, hie, hlen2,
      validateSubnets, paidWork, hasJobMinted, hasProcessed, acquireProcessingLock,
      getPendingJob, savePendingJob, walUpsert, persistWithLock, mkPendingJob, getBuyerId,
      getJobMint, updatePendingJobStatus, natTruthy, savePodPut, publishLoop_eq,
      removePendingJob, c4Deliverable, markJobMinted, markProcessed, insertIfAbsent,
      releaseProcessingLock, strIncludes]
  · simp [c4Run, handlePublishJob, c4Job, c4Oracle, hparse, truthy, stdEnv, hie, hlen2,
      validateSubnets, paidWork, hasJobMinted, hasProcessed, acquireProcessingLock,
      getPendingJob, savePendingJob, walUpsert, persistWithLock, mkPendingJob, getBuyerId,
      getJobMint, updatePendingJobStatus, natTruthy, savePodPut, publishLoop_eq,
      recordPendingJobError, markJobMinted, markProcessed, insertIfAbsent,
      releaseProcessingLock, hsi, isRemoveEv, no_remove_map_submit]
  · simp [c4Run, handlePublishJob, c4Job, c4Oracle, hparse, truthy, stdEnv, hie, hlen2,
      validateSubnets, paidWork, hasJobMinted, hasProcessed, acquireProcessingLock,
      getPendingJob, savePendingJob, walUpsert, persistWithLock, mkPendingJob, getBuyerId,
      getJobMint, updatePendingJobStatus, natTruthy, savePodPut, publishLoop_eq,
      recordPendingJobError, markJobMinted, markProcessed, insertIfAbsent,
      releaseProcessingLock, hsi]


/-- C4 witness: categories crypto and defi with defi's publish failing — both
are attempted, and the entry is removed after successful delivery. -/
theorem c4_witness :
    (∀ s ∈ ["crypto", "defi"],
      Event.submitMetadataEv "4" s ((fun t => t == "crypto") s) ∈
        (c4Run ["crypto", "defi"] (fun t => t == "crypto") true).2) ∧
    getPendingJob (c4Run ["crypto", "defi"] (fun t => t == "crypto") true).1.wal "4" = none :=
  ⟨(c4_partial_failure_delivery ["crypto", "defi"] (fun t => t == "crypto")
      (by decide) (by decide) (by decide)).2.1,
   (c4_partial_failure_delivery ["crypto", "defi"] (fun t => t == "crypto")
      (by decide) (by decide) (by decide)).2.2.1⟩

end ReppoAcp
